import Mathlib

/-
Shallow embedding of `src/hgdecode/loaders.py` (the hgdecode data-loading
pipeline).  Signal amplitudes are modelled as exact rationals, a continuous
recording as a channels-by-samples matrix of rationals together with its
event-marker list, and the external braindecode/mne collaborators either as
executable models that follow the contracts the specification gives for them
or as universally quantified function parameters.
-/

namespace Hgdecode

/-- A continuous multi-channel recording: sampling frequency, channel names,
one data row per channel (channels by samples), and the ordered list of
event markers `(onset_sample, code)`.  Models the mne `RawArray` object that
`loaders.py` threads through the pipeline. -/
structure Recording where
  sfreq : ℚ
  channels : List String
  data : List (List ℚ)
  events : List (Nat × Nat)
deriving DecidableEq

/-- Number of samples of a recording, read off the first channel row. -/
def Recording.n_samples (r : Recording) : Nat := (r.data.headD []).length

/-- Path join, modelling `os.path.join`. -/
def join_path (a b : String) : String := a ++ "/" ++ b

/-- Embeds `get_data_files_paths` (loaders.py lines 23-36): one path
`data_dir/train/<id>.mat`, plus `data_dir/test/<id>.mat` when
`train_test_split` is true. -/
def get_data_files_paths (data_dir : String) (subject_id : Nat)
    (train_test_split : Bool) : List String :=
  let file_name := toString subject_id ++ ".mat"
  if train_test_split then
    [join_path (join_path data_dir "train") file_name,
     join_path (join_path data_dir "test") file_name]
  else
    [join_path (join_path data_dir "train") file_name]

/-- Modelled from the spec: the external raw file reader (`BBCIDataset.load`
of braindecode, spec section 6): given the file content (modelled as the full
recording stored in the file) and an optional sensor-name filter, it loads
either all channels (filter `none`) or only the named ones. -/
def BBCIDataset_load (file : Recording) (load_sensor_names : Option (List String)) :
    Recording :=
  match load_sensor_names with
  | none => file
  | some names =>
      let keep := (file.channels.zip file.data).filter (fun p => names.contains p.1)
      { file with channels := keep.map (fun p => p.1), data := keep.map (fun p => p.2) }

/-- Embeds `load_cnt` (loaders.py lines 40-51): when `clean_on_all_channels`
is true the channel-name filter is replaced by `None` (the all-channels
sentinel) before the reader is invoked. -/
def load_cnt (file : Recording) (channel_names : List String)
    (clean_on_all_channels : Bool) : Recording :=
  BBCIDataset_load file (if clean_on_all_channels then none else some channel_names)

/-- Millisecond-to-sample conversion used by the segmenter model:
`floor (ms * sfreq / 1000)`, written in integer arithmetic over the
numerator/denominator of the rational sampling frequency. -/
def msToSample (ms : Int) (sfreq : ℚ) : Int :=
  (ms * sfreq.num).ediv (1000 * (sfreq.den : Int))

/-- A segmented trial set: one feature tensor (channels by samples) and one
label per trial, in onset order.  Models braindecode's `SignalAndTarget`. -/
structure SignalAndTarget where
  X : List (List (List ℚ))
  y : List Nat
deriving DecidableEq

/-- Modelled from the spec: the external segmenter
(`create_signal_target_from_raw_mne` of braindecode, spec section 6): for each
event whose code appears in the code map, in onset order, cut the window
`ival_ms` (relative to the onset, converted to samples) out of every channel
row. -/
def create_signal_target_from_raw_mne (cnt : Recording)
    (name_to_start_codes : List (String × Nat)) (ival_ms : Int × Int) :
    SignalAndTarget :=
  let codes := name_to_start_codes.map (fun p => p.2)
  let sel := cnt.events.filter (fun e => codes.contains e.2)
  let lo := msToSample ival_ms.1 cnt.sfreq
  let hi := msToSample ival_ms.2 cnt.sfreq
  { X := sel.map (fun e =>
      cnt.data.map (fun row => (row.drop ((e.1 + lo).toNat)).take (hi - lo).toNat)),
    y := sel.map (fun e => e.2) }

/-- Peak absolute amplitude of one trial tensor across all channels and
samples; models `max(abs(X[i]), axis=(1, 2))` with an empty peak of 0. -/
def peakAbs (trial : List (List ℚ)) : ℚ :=
  ((trial.map (fun row => row.map (fun v => |v|))).flatten).foldl max 0

/-- Embeds `get_clean_trial_mask` (loaders.py lines 55-82): segment the
recording with the given code map and window, then mark trial `i` as valid
exactly when its peak absolute amplitude is below the fixed 800 threshold. -/
def get_clean_trial_mask (cnt : Recording)
    (name_to_start_codes : List (String × Nat)) (clean_ival_ms : Int × Int) :
    List Bool :=
  let set_for_cleaning := create_signal_target_from_raw_mne cnt
    name_to_start_codes clean_ival_ms
  set_for_cleaning.X.map (fun trial => decide (peakAbs trial < 800))

/-- Embeds `pick_right_channels` (loaders.py lines 86-88): restrict the
recording to the named channels (mne `pick_channels`, modelled as keeping the
rows whose name occurs in the list). -/
def pick_right_channels (cnt : Recording) (channel_names : List String) :
    Recording :=
  let keep := (cnt.channels.zip cnt.data).filter (fun p => channel_names.contains p.1)
  { cnt with channels := keep.map (fun p => p.1), data := keep.map (fun p => p.2) }

/-- Per-sample cross-channel mean of column `j` of a channels-by-samples
matrix; models `mean(x, axis=0, keepdims=True)` at one sample index. -/
def colMean (x : List (List ℚ)) (j : Nat) : ℚ :=
  ((x.map (fun row => row.getD j 0)).sum) / (x.length : ℚ)

/-- Subtract, at each time sample, the mean across channels: the first stage
of `standardize_cnt` (loaders.py lines 93-96), `x - mean(x, axis=0)`. -/
def subMean (x : List (List ℚ)) : List (List ℚ) :=
  x.map (fun row => row.enum.map (fun p => p.2 - colMean x p.1))

/-- Embeds `standardize_cnt` (loaders.py lines 91-107): subtract the
per-sample cross-channel mean, then band-pass filter between 0.1 Hz and the
Nyquist frequency.  The band-pass filter is braindecode's `bandpass_cnt`, an
opaque external collaborator, so it is passed in as a function parameter
`(signal, low, high, sfreq)`. -/
def standardize_cnt
    (bandpass_cnt : List (List ℚ) → ℚ → ℚ → ℚ → List (List ℚ))
    (cnt : Recording) : Recording :=
  let cnt1 : Recording := { cnt with data := subMean cnt.data }
  let sampling_freq := cnt1.sfreq
  let nyquist_freq := sampling_freq / 2
  { cnt1 with data := bandpass_cnt cnt1.data (1 / 10) nyquist_freq sampling_freq }

/-- Modelled from the spec: the external concatenator
(`concatenate_raws_with_events`, spec section 6): append the two recordings
end-to-end, offsetting the second recording's event onsets by the first
recording's sample count. -/
def concatenate_raws_with_events (a b : Recording) : Recording :=
  { sfreq := a.sfreq
    channels := a.channels
    data := a.data.zipWith (fun ra rb => ra ++ rb) b.data
    events := a.events ++ b.events.map (fun e => (e.1 + a.n_samples, e.2)) }

/-- Result triple of `load_and_preprocess_data`: the preprocessed recording,
the trial-quality mask, and the split boundary (`None` for one file). -/
structure LoadResult where
  cnt : Recording
  clean_trial_mask : List Bool
  train_len : Option Nat
deriving DecidableEq

/-- The load/merge stage of `load_and_preprocess_data` (loaders.py lines
131-158): one file loads directly with a `None` boundary; two files load
independently, the boundary records the train recording's event count before
the two are concatenated; any other path count raises.  `fs` models the
filesystem, mapping a path to the recording stored there. -/
def load_merge_stage (fs : String → Recording) (file_paths : List String)
    (channel_names : List String) (clean_on_all_channels : Bool) :
    Except String (Recording × Option Nat) :=
  match file_paths with
  | [p] =>
      .ok (load_cnt (fs p) channel_names clean_on_all_channels, none)
  | [p1, p2] =>
      let train_cnt := load_cnt (fs p1) channel_names clean_on_all_channels
      let test_cnt := load_cnt (fs p2) channel_names clean_on_all_channels
      let train_len := train_cnt.events.length
      .ok (concatenate_raws_with_events train_cnt test_cnt, some train_len)
  | _ =>
      .error "something went wrong: check single/multiple file loading routine."

/-- The body of `load_and_preprocess_data` after path resolution (loaders.py
lines 131-189): load/merge, compute the clean-trial mask on the merged
recording, pick channels, optionally resample, standardize, and return the
triple.  The resampler (`resample_cnt`) and the band-pass filter are opaque
external collaborators passed as function parameters. -/
def load_and_preprocess_data_from_paths
    (fs : String → Recording)
    (bandpass_cnt : List (List ℚ) → ℚ → ℚ → ℚ → List (List ℚ))
    (resample_cnt : Recording → ℚ → Recording)
    (file_paths : List String)
    (name_to_start_codes : List (String × Nat))
    (channel_names : List String)
    (resampling_freq : Option ℚ)
    (clean_ival_ms : Int × Int)
    (clean_on_all_channels : Bool) : Except String LoadResult :=
  match load_merge_stage fs file_paths channel_names clean_on_all_channels with
  | .error e => .error e
  | .ok (cnt, train_len) =>
      let clean_trial_mask := get_clean_trial_mask cnt name_to_start_codes clean_ival_ms
      let cnt1 := pick_right_channels cnt channel_names
      let cnt2 := match resampling_freq with
        | some f => resample_cnt cnt1 f
        | none => cnt1
      let cnt3 := standardize_cnt bandpass_cnt cnt2
      .ok { cnt := cnt3, clean_trial_mask := clean_trial_mask, train_len := train_len }

/-- Embeds `load_and_preprocess_data` (loaders.py lines 111-189): resolve the
file paths from the directory, subject id and split flag, then run the
pipeline body on them. -/
def load_and_preprocess_data
    (fs : String → Recording)
    (bandpass_cnt : List (List ℚ) → ℚ → ℚ → ℚ → List (List ℚ))
    (resample_cnt : Recording → ℚ → Recording)
    (data_dir : String)
    (name_to_start_codes : List (String × Nat))
    (channel_names : List String)
    (subject_id : Nat)
    (resampling_freq : Option ℚ)
    (clean_ival_ms : Int × Int)
    (train_test_split : Bool)
    (clean_on_all_channels : Bool) : Except String LoadResult :=
  let file_paths := get_data_files_paths data_dir subject_id train_test_split
  load_and_preprocess_data_from_paths fs bandpass_cnt resample_cnt file_paths
    name_to_start_codes channel_names resampling_freq clean_ival_ms
    clean_on_all_channels

/-- Round half to even on rationals, modelling `numpy.round` (the float
division `tot_len / 1.8` of the source is modelled as exact rational
division; `1.8 = 9/5`). -/
def roundHalfEven (q : ℚ) : ℤ :=
  if q - (⌊q⌋ : ℚ) < 1 / 2 then ⌊q⌋
  else if 1 / 2 < q - (⌊q⌋ : ℚ) then ⌊q⌋ + 1
  else if ⌊q⌋ % 2 = 0 then ⌊q⌋ else ⌊q⌋ + 1

/-- The numpy slice `arange(n)[-k:]`: for `k = 0` the negative start `-0`
degenerates to `0` and the slice is the whole range; otherwise it is the last
`k` indices (clamped to the start when `k > n`). -/
def numpy_tail_slice (n k : Nat) : List Nat :=
  if k = 0 then List.range n else (List.range n).drop (n - k)

/-- Number of `true` entries of a boolean mask; models
`mask.astype(int).sum()`. -/
def countTrue (mask : List Bool) : Nat := mask.count true

/-- The sets-dimension block of `dl_loader` (loaders.py lines 248-260):
resolve `train_len` (falling back to `round(tot_len / 1.8)` when the split
boundary is `None`), set `test_len = tot_len - train_len`, slice
`arange(tot_len)` into `[0:train_len]` and `[-test_len:]`, index the mask
with each slice and count the valid trials of each.  `tot_len` is the mask
length (the mask and the epoched trials are positionally aligned).  Returns
`(train_len, test_len, new_train_len, new_test_len)`. -/
def dl_loader_set_dims (clean_trial_mask : List Bool) (train_len0 : Option Nat) :
    Nat × Nat × Nat × Nat :=
  let tot_len := clean_trial_mask.length
  let train_len := match train_len0 with
    | none => (roundHalfEven ((tot_len : ℚ) * 5 / 9)).toNat
    | some t => t
  let test_len := tot_len - train_len
  let train_indexes := (List.range tot_len).take train_len
  let test_indexes := numpy_tail_slice tot_len test_len
  let new_train_len := countTrue (train_indexes.map (fun i => clean_trial_mask.getD i false))
  let new_test_len := countTrue (test_indexes.map (fun i => clean_trial_mask.getD i false))
  (train_len, test_len, new_train_len, new_test_len)

/-- Boolean-mask filtering of a trial sequence, preserving order: models the
numpy fancy indexing `epo.X[clean_trial_mask]` of `dl_loader` (loaders.py
lines 265-266). -/
def maskFilter {α : Type} (xs : List α) (mask : List Bool) : List α :=
  (xs.zip mask).filterMap (fun p => if p.2 then some p.1 else none)

/-- Sample two-channel recording with two events, used to instantiate the
universally quantified theorems at a concrete input. -/
def sampleRecording : Recording :=
  { sfreq := 1000
    channels := ["Cz", "Pz"]
    data := [[1, 2, 3, 4], [2, 3, 4, 5]]
    events := [(0, 1), (2, 2)] }

/-- Constant filesystem model: every path stores `sampleRecording`. -/
def sampleFS : String → Recording := fun _ => sampleRecording

/-- Identity band-pass model used to instantiate the opaque collaborator. -/
def idBandpass : List (List ℚ) → ℚ → ℚ → ℚ → List (List ℚ) := fun x _ _ _ => x

/-- Identity resampler model used to instantiate the opaque collaborator. -/
def idResample : Recording → ℚ → Recording := fun c _ => c

section ListHelpers

lemma getD_range_take (l : List Bool) (t : Nat) :
    ((List.range l.length).take t).map (fun i => l.getD i false) = l.take t := by
  apply List.ext_getElem?
  intro n
  by_cases h1 : n < t
  · by_cases h2 : n < l.length
    · rw [List.getElem?_map, List.getElem?_take_of_lt h1, List.getElem?_range h2,
        List.getElem?_take_of_lt h1, List.getElem?_eq_getElem h2]
      simp [List.getD_eq_getElem?_getD, List.getElem?_eq_getElem h2]
    · have hlen1 : ((List.range l.length).take t).length ≤ n := by
        simp [List.length_take]
        omega
      have hlen2 : (l.take t).length ≤ n := by
        simp [List.length_take]
        omega
      rw [List.getElem?_map, List.getElem?_eq_none hlen1, List.getElem?_eq_none hlen2]
      rfl
  · have hlen1 : ((List.range l.length).take t).length ≤ n := by
      simp [List.length_take]
      omega
    have hlen2 : (l.take t).length ≤ n := by
      simp [List.length_take]
      omega
    rw [List.getElem?_map, List.getElem?_eq_none hlen1, List.getElem?_eq_none hlen2]
    rfl

lemma getD_range_drop (l : List Bool) (t : Nat) :
    ((List.range l.length).drop t).map (fun i => l.getD i false) = l.drop t := by
  apply List.ext_getElem?
  intro n
  by_cases h2 : t + n < l.length
  · rw [List.getElem?_map, List.getElem?_drop, List.getElem?_range h2,
      List.getElem?_drop, List.getElem?_eq_getElem h2]
    simp [List.getD_eq_getElem?_getD, List.getElem?_eq_getElem h2]
  · have hlen1 : ((List.range l.length).drop t).length ≤ n := by
      simp [List.length_drop]
      omega
    have hlen2 : (l.drop t).length ≤ n := by
      simp [List.length_drop]
      omega
    rw [List.getElem?_map, List.getElem?_eq_none hlen1, List.getElem?_eq_none hlen2]
    rfl

lemma maskFilter_append {α : Type} (xs ys : List α) (m1 m2 : List Bool)
    (h : xs.length = m1.length) :
    maskFilter (xs ++ ys) (m1 ++ m2) = maskFilter xs m1 ++ maskFilter ys m2 := by
  unfold maskFilter
  rw [List.zip_append h, List.filterMap_append]

lemma maskFilter_length {α : Type} (xs : List α) (m : List Bool)
    (h : xs.length = m.length) :
    (maskFilter xs m).length = countTrue m := by
  induction xs generalizing m with
  | nil =>
      have hm : m = [] := by
        cases m with
        | nil => rfl
        | cons b bs => simp at h
      subst hm
      simp [maskFilter, countTrue]
  | cons a as ih =>
      cases m with
      | nil => simp at h
      | cons b bs =>
          have hlen : as.length = bs.length := by simpa using h
          cases b <;>
            simp [maskFilter, countTrue, List.count_cons] at ih ⊢ <;>
            simpa [maskFilter, countTrue] using ih bs hlen

end ListHelpers

section DlCountHelpers

lemma dl_new_train_eq (mask : List Bool) (t : Nat) :
    (dl_loader_set_dims mask (some t)).2.2.1 = countTrue (mask.take t) := by
  simp only [dl_loader_set_dims]
  rw [getD_range_take]

lemma dl_new_test_eq (mask : List Bool) (t : Nat) (ht : t ≤ mask.length) :
    (dl_loader_set_dims mask (some t)).2.2.2 =
      (if t < mask.length then countTrue (mask.drop t) else countTrue mask) := by
  simp only [dl_loader_set_dims, numpy_tail_slice]
  by_cases h : t < mask.length
  · have h0 : mask.length - t ≠ 0 := by omega
    have h1 : mask.length - (mask.length - t) = t := by omega
    rw [if_neg h0, h1, getD_range_drop, if_pos h]
  · have ht2 : t = mask.length := by omega
    have h0 : mask.length - t = 0 := by omega
    rw [h0, if_pos rfl, if_neg h]
    have hd := getD_range_drop mask 0
    rw [List.drop_zero, List.drop_zero] at hd
    rw [hd]

end DlCountHelpers

section RoundHelpers

lemma roundHalfEven_le (q : ℚ) : roundHalfEven q ≤ ⌊q⌋ + 1 := by
  unfold roundHalfEven
  split_ifs <;> omega

lemma round_ratio_le (n : Nat) : (roundHalfEven ((n : ℚ) * 5 / 9)).toNat ≤ n := by
  rw [Int.toNat_le]
  rcases Nat.eq_zero_or_pos n with h0 | hpos
  · subst h0
    norm_num [roundHalfEven]
  · have h1 : roundHalfEven ((n : ℚ) * 5 / 9) ≤ ⌊(n : ℚ) * 5 / 9⌋ + 1 :=
      roundHalfEven_le _
    have h2 : ⌊(n : ℚ) * 5 / 9⌋ < (n : ℤ) := by
      rw [Int.floor_lt]
      have hn : (0 : ℚ) < (n : ℚ) := by exact_mod_cast hpos
      push_cast
      nlinarith
    omega

end RoundHelpers

section SubMeanHelpers

lemma enum_map_sub_getD (row : List ℚ) (c : Nat → ℚ) (j : Nat) (hj : j < row.length) :
    (row.enum.map (fun p => p.2 - c p.1)).getD j 0 = row.getD j 0 - c j := by
  have hlen : j < (row.enum.map (fun p => p.2 - c p.1)).length := by simp [hj]
  rw [List.getD_eq_getElem?_getD, List.getElem?_eq_getElem hlen,
    List.getD_eq_getElem?_getD, List.getElem?_eq_getElem hj]
  simp [List.getElem_map, List.getElem_enum]

lemma map_enum_sub_col (c : Nat → ℚ) (L j : Nat) (hj : j < L) :
    ∀ (x : List (List ℚ)), (∀ row ∈ x, row.length = L) →
      (x.map (fun row => row.enum.map (fun p => p.2 - c p.1))).map
          (fun row => row.getD j 0)
        = x.map (fun row => row.getD j 0 - c j) := by
  intro x
  induction x with
  | nil => intro _; simp
  | cons hd tl ih =>
      intro h
      have hh : hd.length = L := h hd (by simp)
      have ht : ∀ row ∈ tl, row.length = L := fun r hr => h r (by simp [hr])
      simp only [List.map_cons, List.cons.injEq]
      exact ⟨enum_map_sub_getD hd c j (by omega), ih ht⟩

lemma subMean_col (x : List (List ℚ)) (L j : Nat)
    (h : ∀ row ∈ x, row.length = L) (hj : j < L) :
    (subMean x).map (fun row => row.getD j 0) =
      x.map (fun row => row.getD j 0 - colMean x j) := by
  unfold subMean
  exact map_enum_sub_col (fun i => colMean x i) L j hj x h

lemma map_sub_const_sum (l : List (List ℚ)) (f : List ℚ → ℚ) (c : ℚ) :
    (l.map (fun row => f row - c)).sum = (l.map f).sum - l.length * c := by
  induction l with
  | nil => simp
  | cons hd tl ih =>
      simp only [List.map_cons, List.sum_cons, ih, List.length_cons]
      push_cast
      ring

lemma subMean_colSum (x : List (List ℚ)) (L j : Nat)
    (h : ∀ row ∈ x, row.length = L) (hj : j < L) :
    ((subMean x).map (fun row => row.getD j 0)).sum = 0 := by
  rw [subMean_col x L j h hj, map_sub_const_sum]
  rcases Nat.eq_zero_or_pos x.length with h0 | hpos
  · have hx : x = [] := List.length_eq_zero.mp h0
    subst hx
    simp
  · have hne : (x.length : ℚ) ≠ 0 := Nat.cast_ne_zero.mpr (by omega)
    rw [colMean, mul_comm, div_mul_cancel₀ _ hne, sub_self]

lemma subMean_colMean (x : List (List ℚ)) (L j : Nat)
    (h : ∀ row ∈ x, row.length = L) (hj : j < L) :
    colMean (subMean x) j = 0 := by
  rw [colMean, subMean_colSum x L j h hj, zero_div]

lemma subMean_rows_length (x : List (List ℚ)) (L : Nat)
    (h : ∀ row ∈ x, row.length = L) :
    ∀ row ∈ subMean x, row.length = L := by
  intro row hr
  unfold subMean at hr
  rcases List.mem_map.mp hr with ⟨r0, hr0, rfl⟩
  simp [h r0 hr0]

lemma subMean_idem (x : List (List ℚ)) (L : Nat)
    (h : ∀ row ∈ x, row.length = L) :
    subMean (subMean x) = subMean x := by
  have hrows := subMean_rows_length x L h
  show (subMean x).map
      (fun row => row.enum.map (fun p => p.2 - colMean (subMean x) p.1))
    = subMean x
  have hfix : ∀ row ∈ subMean x,
      row.enum.map (fun p => p.2 - colMean (subMean x) p.1) = row := by
    intro row hr
    have hrl : row.length = L := hrows row hr
    apply List.ext_getElem
    · simp
    · intro j hj1 hj2
      rw [List.getElem_map, List.getElem_enum]
      have hz : colMean (subMean x) j = 0 := subMean_colMean x L j h (by omega)
      rw [hz, sub_zero]
  exact (List.map_congr_left hfix).trans (List.map_id' _)

end SubMeanHelpers

/-- Length of the clean-trial mask equals the number of segmented trials;
shared helper for the mask theorems. -/
lemma mask_len_eq (cnt : Recording) (codes : List (String × Nat))
    (ival : Int × Int) :
    (get_clean_trial_mask cnt codes ival).length
      = (create_signal_target_from_raw_mne cnt codes ival).X.length := by
  simp [get_clean_trial_mask]

/-- Train file path resolved by `get_data_files_paths`. -/
def train_file_path (data_dir : String) (subject_id : Nat) : String :=
  join_path (join_path data_dir "train") (toString subject_id ++ ".mat")

/-- C1 (counterexample): with mask `[true]`, total 1 and `train_len = 1`
(allowed by the claim's bound `train_len <= total`), `dl_loader` does NOT
compute `new_test_len` as the count of valid trials in the empty test range
`[1, 1)`: the numpy slice `arange(1)[-0:]` is the whole range, so
`new_test_len = 1` while the claim demands `0`. -/
theorem C1_counterexample :
    ¬ ((dl_loader_set_dims [true] (some 1)).2.2.2
        = countTrue (List.drop 1 [true])) := by
  decide

/-- C1 (amended): for `train_len <= total`, `new_train_len` is the number of
valid trials with original index in `[0, train_len)`; `new_test_len` is the
number of valid trials with original index in `[train_len, total)` whenever
`train_len < total`, while at `train_len = total` the `[-0:]` slice
degenerates and `new_test_len` counts the valid trials of the whole original
range instead. -/
theorem C1_theorem (mask : List Bool) (t : Nat) (ht : t ≤ mask.length) :
    (dl_loader_set_dims mask (some t)).2.2.1 = countTrue (mask.take t) ∧
    (dl_loader_set_dims mask (some t)).2.2.2 =
      (if t < mask.length then countTrue (mask.drop t) else countTrue mask) :=
  ⟨dl_new_train_eq mask t, dl_new_test_eq mask t ht⟩

/-- C1 witness: the spec's own worked example, mask `[T,F,T,T]` with train
range `[0,2)`: `new_train_len = 1` and `new_test_len = 2`. -/
theorem C1_witness :
    (dl_loader_set_dims [true, false, true, true] (some 2)).2.2.1 =
        countTrue (List.take 2 [true, false, true, true]) ∧
    (dl_loader_set_dims [true, false, true, true] (some 2)).2.2.2 =
      (if 2 < ([true, false, true, true] : List Bool).length
        then countTrue (List.drop 2 [true, false, true, true])
        else countTrue [true, false, true, true]) :=
  C1_theorem [true, false, true, true] 2 (by decide)

/-- C2: filtering the trial sequence globally by the mask and taking the
first `new_train_len` entries yields exactly the valid train-range trials
(the train-range trials filtered by the restricted mask), and the remaining
entries are exactly the valid test-range trials — the prefix property of the
train range. -/
theorem C2_theorem {α : Type} (xs : List α) (mask : List Bool) (t : Nat)
    (hlen : xs.length = mask.length) (ht : t ≤ xs.length) :
    (maskFilter xs mask).take ((dl_loader_set_dims mask (some t)).2.2.1)
        = maskFilter (xs.take t) (mask.take t) ∧
    (maskFilter xs mask).drop ((dl_loader_set_dims mask (some t)).2.2.1)
        = maskFilter (xs.drop t) (mask.drop t) := by
  have hnt : (dl_loader_set_dims mask (some t)).2.2.1 = countTrue (mask.take t) :=
    dl_new_train_eq mask t
  have hlen2 : (xs.take t).length = (mask.take t).length := by
    simp [List.length_take, hlen]
  have hsplit : maskFilter xs mask
      = maskFilter (xs.take t) (mask.take t)
          ++ maskFilter (xs.drop t) (mask.drop t) := by
    conv_lhs => rw [← List.take_append_drop t xs, ← List.take_append_drop t mask]
    exact maskFilter_append _ _ _ _ hlen2
  have hflen : (maskFilter (xs.take t) (mask.take t)).length
      = countTrue (mask.take t) := maskFilter_length _ _ hlen2
  constructor
  · rw [hnt, hsplit, List.take_left' hflen]
  · rw [hnt, hsplit, List.drop_left' hflen]

/-- C2 witness: four trials, mask `[T,F,T,T]`, train range `[0,2)`. -/
theorem C2_witness :
    (maskFilter [10, 20, 30, 40]
          [true, false, true, true]).take
        ((dl_loader_set_dims [true, false, true, true] (some 2)).2.2.1)
      = maskFilter (List.take 2 [10, 20, 30, 40])
          (List.take 2 [true, false, true, true]) ∧
    (maskFilter [10, 20, 30, 40]
          [true, false, true, true]).drop
        ((dl_loader_set_dims [true, false, true, true] (some 2)).2.2.1)
      = maskFilter (List.drop 2 [10, 20, 30, 40])
          (List.drop 2 [true, false, true, true]) :=
  C2_theorem [10, 20, 30, 40] [true, false, true, true] 2 (by decide) (by decide)

/-- C3: a single-file load returns a `none` split boundary, and the
`dl_loader` fallback sets `train_len = round(total / 1.8)` (round half to
even, the float division modelled exactly as the rational `total * 5 / 9`)
and `test_len = total - train_len`, with `train_len + test_len = total` for
every total trial count. -/
theorem C3_theorem :
    (∀ (fs : String → Recording)
        (bp : List (List ℚ) → ℚ → ℚ → ℚ → List (List ℚ))
        (rs : Recording → ℚ → Recording)
        (data_dir : String) (codes : List (String × Nat)) (ch : List String)
        (subject_id : Nat) (rf : Option ℚ) (ival : Int × Int) (cleanAll : Bool),
      ∃ r, load_and_preprocess_data fs bp rs data_dir codes ch subject_id rf
              ival false cleanAll = .ok r
        ∧ r.train_len = none) ∧
    (∀ mask : List Bool,
      (dl_loader_set_dims mask none).1 =
          (roundHalfEven ((mask.length : ℚ) * 5 / 9)).toNat ∧
      (dl_loader_set_dims mask none).1 + (dl_loader_set_dims mask none).2.1
          = mask.length) := by
  constructor
  · intro fs bp rs data_dir codes ch subject_id rf ival cleanAll
    exact ⟨_, rfl, rfl⟩
  · intro mask
    refine ⟨rfl, ?_⟩
    have hle := round_ratio_le mask.length
    simp only [dl_loader_set_dims]
    omega

/-- C4: for a two-file load the returned split boundary is exactly the
event-marker count of the train recording alone, measured before
concatenation, and two runs whose filesystems agree on the train path (but
may differ arbitrarily on the test path and every other collaborator) return
the same boundary. -/
theorem C4_theorem (fs1 fs2 : String → Recording)
    (bp1 bp2 : List (List ℚ) → ℚ → ℚ → ℚ → List (List ℚ))
    (rs1 rs2 : Recording → ℚ → Recording)
    (data_dir : String) (codes1 codes2 : List (String × Nat))
    (ch : List String) (subject_id : Nat) (rf1 rf2 : Option ℚ)
    (ival1 ival2 : Int × Int) (cleanAll : Bool)
    (hsame : fs1 (train_file_path data_dir subject_id)
        = fs2 (train_file_path data_dir subject_id)) :
    ∃ r1 r2,
      load_and_preprocess_data fs1 bp1 rs1 data_dir codes1 ch subject_id rf1
          ival1 true cleanAll = .ok r1 ∧
      load_and_preprocess_data fs2 bp2 rs2 data_dir codes2 ch subject_id rf2
          ival2 true cleanAll = .ok r2 ∧
      r1.train_len = some ((load_cnt (fs1 (train_file_path data_dir subject_id))
          ch cleanAll).events.length) ∧
      r2.train_len = r1.train_len := by
  refine ⟨_, _, rfl, rfl, rfl, ?_⟩
  simp only [train_file_path] at hsame
  show some ((load_cnt (fs2 (join_path (join_path data_dir "train")
      (toString subject_id ++ ".mat"))) ch cleanAll).events.length) = _
  rw [hsame]

/-- C4 witness: one concrete two-file run compared with itself. -/
theorem C4_witness :
    ∃ r1 r2,
      load_and_preprocess_data sampleFS idBandpass idResample "data" [("a", 1)]
          ["Cz"] 1 none (0, 2) true true = .ok r1 ∧
      load_and_preprocess_data sampleFS idBandpass idResample "data" [("a", 1)]
          ["Cz"] 1 none (0, 2) true true = .ok r2 ∧
      r1.train_len = some ((load_cnt (sampleFS (train_file_path "data" 1))
          ["Cz"] true).events.length) ∧
      r2.train_len = r1.train_len :=
  C4_theorem sampleFS sampleFS idBandpass idBandpass idResample idResample
    "data" [("a", 1)] [("a", 1)] ["Cz"] 1 none none (0, 2) (0, 2) true rfl

/-- C5: the clean-trial mask entry for trial `i` is exactly
`peak absolute amplitude of trial i < 800`, with the threshold the fixed
literal 800 of `get_clean_trial_mask` (no per-call parameter). -/
theorem C5_theorem (cnt : Recording) (codes : List (String × Nat))
    (ival : Int × Int) (i : Nat)
    (h : i < (create_signal_target_from_raw_mne cnt codes ival).X.length) :
    (get_clean_trial_mask cnt codes ival).getD i false
      = decide (peakAbs
          ((create_signal_target_from_raw_mne cnt codes ival).X.get ⟨i, h⟩)
        < 800) := by
  simp only [get_clean_trial_mask]
  rw [List.getD_eq_getElem?_getD, List.getElem?_map, List.getElem?_eq_getElem h]
  simp [List.get_eq_getElem]

/-- C5 witness: the first trial of the sample recording has peak 3 < 800,
so its mask entry is true. -/
theorem C5_witness :
    (get_clean_trial_mask sampleRecording [("a", 1)] (0, 2)).getD 0 false
      = true := by
  rw [C5_theorem sampleRecording [("a", 1)] (0, 2) 0 (by decide)]
  decide

/-- The concatenation of the sample recording with itself, the merged
recording of a concrete two-file run. -/
def mergedSample : Recording :=
  concatenate_raws_with_events sampleRecording sampleRecording

/-- C6: the pipeline body runs load/merge, quality masking, channel
selection, optional resampling and standardization in that fixed order and
returns the triple; the returned clean-trial mask is computed from the
merged recording `cnt0` before channel selection, resampling and band-pass
filtering are applied, while the returned recording is the merged recording
after channel selection, then optional resampling, then standardization. -/
theorem C6_theorem (fs : String → Recording)
    (bp : List (List ℚ) → ℚ → ℚ → ℚ → List (List ℚ))
    (rs : Recording → ℚ → Recording) (file_paths : List String)
    (codes : List (String × Nat)) (ch : List String) (rf : Option ℚ)
    (ival : Int × Int) (cleanAll : Bool) (cnt0 : Recording) (tl : Option Nat)
    (h : load_merge_stage fs file_paths ch cleanAll = .ok (cnt0, tl)) :
    load_and_preprocess_data_from_paths fs bp rs file_paths codes ch rf ival
        cleanAll
      = .ok { cnt := standardize_cnt bp
                (match rf with
                  | some f => rs (pick_right_channels cnt0 ch) f
                  | none => pick_right_channels cnt0 ch),
              clean_trial_mask := get_clean_trial_mask cnt0 codes ival,
              train_len := tl } := by
  unfold load_and_preprocess_data_from_paths
  rw [h]

/-- C6 witness: a concrete two-file run with no resampling. -/
theorem C6_witness :
    load_and_preprocess_data_from_paths sampleFS idBandpass idResample
        ["data/train/1.mat", "data/test/1.mat"] [("a", 1)] ["Cz"] none (0, 2)
        true
      = .ok { cnt := standardize_cnt idBandpass
                (pick_right_channels mergedSample ["Cz"]),
              clean_trial_mask := get_clean_trial_mask mergedSample
                [("a", 1)] (0, 2),
              train_len := some 2 } :=
  C6_theorem sampleFS idBandpass idResample
    ["data/train/1.mat", "data/test/1.mat"] [("a", 1)] ["Cz"] none (0, 2) true
    mergedSample (some 2) rfl

/-- C7: the clean-trial mask has exactly one boolean entry per candidate
trial produced by segmenting the same recording with the same code map and
window, and entry `i` is computed from trial `i` (the mask is the in-order
image of the trial list). -/
theorem C7_theorem (cnt : Recording) (codes : List (String × Nat))
    (ival : Int × Int) :
    (get_clean_trial_mask cnt codes ival).length
        = (create_signal_target_from_raw_mne cnt codes ival).X.length ∧
    get_clean_trial_mask cnt codes ival
        = (create_signal_target_from_raw_mne cnt codes ival).X.map
            (fun trial => decide (peakAbs trial < 800)) :=
  ⟨mask_len_eq cnt codes ival, rfl⟩

/-- C8: the pipeline body errors exactly when the resolved path list has a
length other than one or two; `get_data_files_paths` returns two paths when
`train_test_split` is true and one otherwise; hence the error branch is
unreachable through `load_and_preprocess_data`, which always succeeds. -/
theorem C8_theorem :
    (∀ (fs : String → Recording)
        (bp : List (List ℚ) → ℚ → ℚ → ℚ → List (List ℚ))
        (rs : Recording → ℚ → Recording) (file_paths : List String)
        (codes : List (String × Nat)) (ch : List String) (rf : Option ℚ)
        (ival : Int × Int) (cleanAll : Bool),
      (load_and_preprocess_data_from_paths fs bp rs file_paths codes ch rf
          ival cleanAll).isOk = true
        ↔ (file_paths.length = 1 ∨ file_paths.length = 2)) ∧
    (∀ (data_dir : String) (subject_id : Nat) (split : Bool),
      (get_data_files_paths data_dir subject_id split).length
        = if split then 2 else 1) ∧
    (∀ (fs : String → Recording)
        (bp : List (List ℚ) → ℚ → ℚ → ℚ → List (List ℚ))
        (rs : Recording → ℚ → Recording) (data_dir : String)
        (codes : List (String × Nat)) (ch : List String) (subject_id : Nat)
        (rf : Option ℚ) (ival : Int × Int) (split cleanAll : Bool),
      (load_and_preprocess_data fs bp rs data_dir codes ch subject_id rf ival
          split cleanAll).isOk = true) := by
  refine ⟨?_, ?_, ?_⟩
  · intro fs bp rs file_paths codes ch rf ival cleanAll
    match file_paths with
    | [] =>
        simp [load_and_preprocess_data_from_paths, load_merge_stage,
          Except.isOk, Except.toBool]
    | [p] =>
        simp [load_and_preprocess_data_from_paths, load_merge_stage,
          Except.isOk, Except.toBool]
    | [p1, p2] =>
        simp [load_and_preprocess_data_from_paths, load_merge_stage,
          Except.isOk, Except.toBool]
    | p1 :: p2 :: p3 :: rest =>
        simp [load_and_preprocess_data_from_paths, load_merge_stage,
          Except.isOk, Except.toBool]
  · intro data_dir subject_id split
    cases split <;> rfl
  · intro fs bp rs data_dir codes ch subject_id rf ival split cleanAll
    cases split <;> rfl

/-- C8 witness: three paths give an error, and a concrete orchestrated
single-file run succeeds. -/
theorem C8_witness :
    ((load_and_preprocess_data_from_paths sampleFS idBandpass idResample
          ["a", "b", "c"] [("a", 1)] ["Cz"] none (0, 2) true).isOk = true
      ↔ ((["a", "b", "c"] : List String).length = 1
          ∨ (["a", "b", "c"] : List String).length = 2)) ∧
    (load_and_preprocess_data sampleFS idBandpass idResample "data" [("a", 1)]
        ["Cz"] 1 none (0, 2) false true).isOk = true :=
  ⟨C8_theorem.1 sampleFS idBandpass idResample ["a", "b", "c"] [("a", 1)]
      ["Cz"] none (0, 2) true,
    C8_theorem.2.2 sampleFS idBandpass idResample "data" [("a", 1)] ["Cz"] 1
      none (0, 2) false true⟩

/-- C9: the mean-subtraction step of `standardize_cnt` is idempotent over
exact arithmetic on every rectangular signal matrix, and after one
application the cross-channel mean of every time sample is zero. -/
theorem C9_theorem (x : List (List ℚ)) (L : Nat)
    (h : ∀ row ∈ x, row.length = L) :
    subMean (subMean x) = subMean x ∧
    ∀ j, j < L → colMean (subMean x) j = 0 :=
  ⟨subMean_idem x L h, fun j hj => subMean_colMean x L j h hj⟩

/-- C9 witness: a concrete 2-by-2 signal matrix. -/
theorem C9_witness :
    subMean (subMean [[1, 2], [3, 5]]) = subMean [[1, 2], [3, 5]] ∧
    ∀ j, j < 2 → colMean (subMean [[1, 2], [3, 5]]) j = 0 :=
  C9_theorem [[1, 2], [3, 5]] 2 (by decide)

/-- C10: when `clean_on_all_channels` is true, `load_cnt` does not depend on
the channel-name argument: the filter is replaced by the all-channels
sentinel before the reader runs, so any two channel lists give the same
recording. -/
theorem C10_theorem (file : Recording) (ch1 ch2 : List String) :
    load_cnt file ch1 true = load_cnt file ch2 true := rfl

end Hgdecode
